import Mathlib

/-
Verification of the WebSocket chat fan-out service
(src/usecases/websocket_chat/src/main.rs) against its design document.

The development shallowly embeds the service: the `ChatMessage` JSON
decoding performed by `serde_json::from_str::<ChatMessage>` (derived
`Deserialize`, no `deny_unknown_fields`), the `tokio::sync::broadcast`
channel semantics the handler relies on, and the connection lifecycle of
`handle_socket` (connect, inbound read loop, forwarding task, teardown)
as an explicit state machine.
-/

namespace WebsocketChat

/-! ## JSON values

Inbound text frames are decoded with `serde_json::from_str::<ChatMessage>`.
We embed JSON at the value level: a text payload is either a parsed JSON
value or unparseable text.  Objects keep their fields as an ordered list,
matching the event stream the derived `Deserialize` visitor consumes. -/

/-- JSON values as fed to the derived `Deserialize` impl.  Numbers are
restricted to integers, which is all the claims exercise. -/
inductive Json where
  | null : Json
  | bool (b : Bool) : Json
  | num (n : Int) : Json
  | str (s : String) : Json
  | arr (xs : List Json) : Json
  | obj (fields : List (String × Json)) : Json
deriving Repr

/-! ## RFC 3339 timestamps

`ChatMessage.timestamp` is `chrono::DateTime<chrono::Utc>`, whose
`Deserialize` accepts an RFC 3339 date-time string.  We embed the parse:
`YYYY-MM-DDTHH:MM:SS(.fraction)?(Z|±HH:MM)` with calendar range checks
(leap years included).  Restrictions kept conservative and irrelevant to
the claims: at most nine fractional digits, no leap second `:60`. -/

/-- Parsed RFC 3339 date-time: calendar components plus the numeric
offset in minutes (`0` for `Z`). -/
structure Rfc3339 where
  year : Nat
  month : Nat
  day : Nat
  hour : Nat
  minute : Nat
  second : Nat
  nanos : Nat
  offsetMinutes : Int
deriving DecidableEq, Repr

/-- Decimal value of an ASCII digit. -/
def digitVal (c : Char) : Option Nat :=
  if c.isDigit then some (c.toNat - 48) else none

/-- Value of a fixed-width decimal field. -/
def digitsVal : List Char → Option Nat
  | [] => some 0
  | c :: cs =>
    match digitVal c, digitsVal cs with
    | some d, some v => some (d * 10 ^ cs.length + v)
    | _, _ => none

/-- Leap-year test of the proleptic Gregorian calendar. -/
def isLeapYear (y : Nat) : Bool :=
  (y % 4 == 0 && y % 100 != 0) || y % 400 == 0

/-- Number of days in a month. -/
def daysInMonth (y m : Nat) : Nat :=
  if m == 2 then (if isLeapYear y then 29 else 28)
  else if m == 4 || m == 6 || m == 9 || m == 11 then 30
  else 31

/-- Consume a maximal run of digits, returning their value, their count
and the rest of the input. -/
def takeDigits : List Char → Nat × Nat × List Char
  | [] => (0, 0, [])
  | c :: cs =>
    match digitVal c with
    | none => (0, 0, c :: cs)
    | some d =>
      let r := takeDigits cs
      (d * 10 ^ r.2.1 + r.1, r.2.1 + 1, r.2.2)

/-- Parse the fractional-second part, if present: a dot followed by one
to nine digits, scaled to nanoseconds. -/
def parseFrac : List Char → Option (Nat × List Char)
  | '.' :: cs =>
    let r := takeDigits cs
    if r.2.1 == 0 || 9 < r.2.1 then none
    else some (r.1 * 10 ^ (9 - r.2.1), r.2.2)
  | cs => some (0, cs)

/-- Parse the trailing numeric offset: `Z`, `z`, or `±HH:MM`. -/
def parseOffset : List Char → Option Int
  | ['Z'] => some 0
  | ['z'] => some 0
  | ['+', h1, h2, ':', m1, m2] =>
    match digitsVal [h1, h2], digitsVal [m1, m2] with
    | some hh, some mm =>
      if hh ≤ 23 && mm ≤ 59 then some (Int.ofNat (hh * 60 + mm)) else none
    | _, _ => none
  | ['-', h1, h2, ':', m1, m2] =>
    match digitsVal [h1, h2], digitsVal [m1, m2] with
    | some hh, some mm =>
      if hh ≤ 23 && mm ≤ 59 then some (-Int.ofNat (hh * 60 + mm)) else none
    | _, _ => none
  | _ => none

/-- Parse an RFC 3339 date-time string, as `chrono` does when
deserializing a `DateTime<Utc>` field. -/
def parseRfc3339 (s : String) : Option Rfc3339 :=
  match s.toList with
  | y1 :: y2 :: y3 :: y4 :: '-' :: m1 :: m2 :: '-' :: d1 :: d2 :: tSep ::
      h1 :: h2 :: ':' :: mi1 :: mi2 :: ':' :: s1 :: s2 :: rest =>
    if tSep == 'T' || tSep == 't' then
      match digitsVal [y1, y2, y3, y4], digitsVal [m1, m2], digitsVal [d1, d2],
            digitsVal [h1, h2], digitsVal [mi1, mi2], digitsVal [s1, s2] with
      | some y, some mo, some d, some h, some mi, some sec =>
        match parseFrac rest with
        | some (ns, rest2) =>
          match parseOffset rest2 with
          | some off =>
            if 1 ≤ mo && mo ≤ 12 && 1 ≤ d && d ≤ daysInMonth y mo &&
                h ≤ 23 && mi ≤ 59 && sec ≤ 59 then
              some ⟨y, mo, d, h, mi, sec, ns, off⟩
            else none
          | none => none
        | none => none
      | _, _, _, _, _, _ => none
    else none
  | _ => none

/-! ## ChatMessage and its decoding

`struct ChatMessage { username: String, content: String,
timestamp: DateTime<Utc> }` with `#[derive(Deserialize)]` and no
`deny_unknown_fields` attribute: the derived visitor errors on a
duplicated known field or a missing field, deserializes each known
field's value at its expected type, and silently skips fields with any
other key (`IgnoredAny`). -/

/-- The message relayed by the service (main.rs lines 20-25). -/
structure ChatMessage where
  username : String
  content : String
  timestamp : Rfc3339
deriving DecidableEq, Repr

/-- The derived map visitor: fold over the object's fields carrying the
three partially-filled slots. -/
def chatFromFields : List (String × Json) → Option String → Option String →
    Option Rfc3339 → Option ChatMessage
  | [], some u, some c, some t => some ⟨u, c, t⟩
  | [], _, _, _ => none
  | (k, v) :: rest, u, c, t =>
    if k = "username" then
      match u with
      | some _ => none
      | none =>
        match v with
        | Json.str s => chatFromFields rest (some s) c t
        | _ => none
    else if k = "content" then
      match c with
      | some _ => none
      | none =>
        match v with
        | Json.str s => chatFromFields rest u (some s) t
        | _ => none
    else if k = "timestamp" then
      match t with
      | some _ => none
      | none =>
        match v with
        | Json.str s =>
          match parseRfc3339 s with
          | some ts => chatFromFields rest u c (some ts)
          | none => none
        | _ => none
    else
      chatFromFields rest u c t

/-- Deserialize a `ChatMessage` from a JSON value, following the derived
`Deserialize`: an object goes through the map visitor; an array of
exactly three suitably-typed elements goes through the seq visitor;
anything else is rejected. -/
def ChatMessage.fromJson : Json → Option ChatMessage
  | Json.obj fields => chatFromFields fields none none none
  | Json.arr [Json.str u, Json.str c, Json.str t] =>
    match parseRfc3339 t with
    | some ts => some ⟨u, c, ts⟩
    | none => none
  | _ => none

/-- An inbound text frame's payload: the text parsed as JSON, or `none`
for text that is not valid JSON. -/
def TextPayload : Type := Option Json

/-- The decode step `serde_json::from_str::<ChatMessage>(&text)`
(main.rs line 103): JSON parse followed by deserialization. -/
def decodeText (p : TextPayload) : Option ChatMessage :=
  match p with
  | some j => ChatMessage.fromJson j
  | none => none

/-! ## Broadcast channel

The handler relies on `tokio::sync::broadcast`.  We embed its semantics:
a channel of fixed capacity keeps the full send history as ghost state;
a receiver is a cursor into that history.  A receiver more than `cap`
messages behind gets a lag error and is advanced to the oldest retained
message; a receiver that is caught up either suspends (while a sender is
live) or observes the channel closed. -/

/-- Outcome of one `recv` call on a broadcast receiver. -/
inductive RecvOutcome (α : Type) where
  | msg (m : α) : RecvOutcome α
  | lagged : RecvOutcome α
  | pending : RecvOutcome α
  | closed : RecvOutcome α
deriving DecidableEq, Repr

/-- A broadcast channel: capacity, ghost history of accepted sends, and
the number of live receivers. -/
structure Broadcast (α : Type) where
  cap : Nat
  sent : List α
  receivers : Nat
deriving DecidableEq, Repr

/-- Send on a broadcast channel.  With zero receivers the value is
rejected and the error is reported to the caller (tokio returns
`Err(SendError)` and does not buffer the value). -/
def Broadcast.send {α : Type} (b : Broadcast α) (m : α) : Broadcast α × Bool :=
  if b.receivers = 0 then (b, false)
  else ({ b with sent := b.sent ++ [m] }, true)

/-- One `recv` for a receiver whose cursor is `pos`; `live` says whether
any sender handle is still alive.  Returns the outcome and the updated
cursor. -/
def Broadcast.recvAt {α : Type} (b : Broadcast α) (pos : Nat) (live : Bool) :
    RecvOutcome α × Nat :=
  if h : pos < b.sent.length then
    if b.cap < b.sent.length - pos then
      (RecvOutcome.lagged, b.sent.length - b.cap)
    else
      (RecvOutcome.msg (b.sent.get ⟨pos, h⟩), pos + 1)
  else if live then (RecvOutcome.pending, pos)
  else (RecvOutcome.closed, pos)

/-! ## Connection state and system state

`handle_socket` (main.rs lines 76-117): each connection gets a fresh
UUID, a fresh private broadcast channel of capacity 100 whose sender is
stored in `AppState.connections` and whose receiver is drained by the
spawned forwarding task, an inbound read loop over the socket, and a
teardown that aborts the forwarding task and removes the registry
entry.  `AppState` (lines 28-33) holds the shared channel `tx` and the
registry `connections`; we keep the registry's keys in `connections`
and each connection's runtime state keyed by its id in `conns`. -/

/-- Per-connection runtime state: the private broadcast channel created
at line 83 (its sole receiver is the forwarding task's cursor
`fwdPos`), the JSON messages the forwarding task has written to the
socket, and the forwarding task's termination flags (`fwdAborted` set
by `send_task.abort()`, `fwdDone` by the task's own `break`). -/
structure ConnState where
  priv : Broadcast ChatMessage
  fwdPos : Nat
  delivered : List ChatMessage
  fwdAborted : Bool
  fwdDone : Bool
deriving DecidableEq, Repr

/-- State of a connection right after `handle_socket` sets it up:
private channel of capacity 100, empty, with one receiver; nothing
delivered; forwarding task running. -/
def initConn : ConnState :=
  { priv := { cap := 100, sent := [], receivers := 1 }
    fwdPos := 0
    delivered := []
    fwdAborted := false
    fwdDone := false }

/-- Whole-service state: the shared broadcast channel `AppState.tx`, the
keys of the registry `AppState.connections`, and each connection's
runtime state. -/
structure SystemState where
  tx : Broadcast ChatMessage
  connections : List String
  conns : List (String × ConnState)
deriving DecidableEq, Repr

/-- State built by `main` (lines 44-50): shared channel of capacity 100
whose initial receiver is immediately dropped (bound to `_`), empty
registry. -/
def initState : SystemState :=
  { tx := { cap := 100, sent := [], receivers := 0 }
    connections := []
    conns := [] }

/-- Registry key membership (`HashMap::contains_key`). -/
def memKey : List String → String → Bool
  | [], _ => false
  | k :: rest, cid => if k = cid then true else memKey rest cid

/-- Registry key insertion (`HashMap::insert` at line 86: the key set
gains `cid`; a duplicate key would be replaced, leaving the key set
unchanged). -/
def insertKey (l : List String) (cid : String) : List String :=
  if memKey l cid then l else cid :: l

/-- Registry key removal (`HashMap::remove` at line 116). -/
def removeKey : List String → String → List String
  | [], _ => []
  | k :: rest, cid => if k = cid then rest else k :: removeKey rest cid

/-- Lookup of a connection's runtime state by id. -/
def lookupConn : List (String × ConnState) → String → Option ConnState
  | [], _ => none
  | (k, c) :: rest, cid => if k = cid then some c else lookupConn rest cid

/-- Replace a connection's runtime state (first matching key). -/
def setConn : List (String × ConnState) → String → ConnState →
    List (String × ConnState)
  | [], _, _ => []
  | (k, c) :: rest, cid, c2 =>
    if k = cid then (k, c2) :: rest else (k, c) :: setConn rest cid c2

/-- Connection establishment (lines 80-97): a fresh id, a fresh private
broadcast channel whose sender goes into the registry, and a forwarding
task on its receiver.  The shared channel `tx` is untouched: the code
never calls `state.tx.subscribe()`. -/
def onConnect (s : SystemState) (cid : String) : SystemState :=
  { s with
    connections := insertKey s.connections cid
    conns := (cid, initConn) :: s.conns }

/-- Handling of one decoded-or-not text frame (lines 102-106): on a
successful decode the message is sent on the shared channel and the
result is discarded (`let _ = state.tx.send(..)`); on a decode failure
nothing happens. -/
def publishStep (s : SystemState) (p : TextPayload) : SystemState :=
  match decodeText p with
  | some m => { s with tx := (s.tx.send m).1 }
  | none => s

/-- A frame as matched by the read loop (axum `Message`; the binary,
ping and pong payloads are elided since line 109 ignores them). -/
inductive Frame where
  | text (p : TextPayload) : Frame
  | binary : Frame
  | ping : Frame
  | pong : Frame
  | close : Frame

/-- One result of `receiver.next().await`: a frame (`Some(Ok(..))`), a
protocol error (`Some(Err(..))`), or end of stream (`None`). -/
inductive RecvEvent where
  | frame (f : Frame) : RecvEvent
  | readErr : RecvEvent
  | streamEnd : RecvEvent

/-- The inbound read loop (lines 100-111) over a list of receive
results.  Returns the state after the loop and whether the loop exited
(reaching teardown); `false` means the loop is still awaiting a frame.
The `while let Some(Ok(message))` pattern exits on an error or on end
of stream; a close frame exits via `break`; other frames are ignored. -/
def readLoop : SystemState → List RecvEvent → SystemState × Bool
  | s, [] => (s, false)
  | s, RecvEvent.frame (Frame.text p) :: rest => readLoop (publishStep s p) rest
  | s, RecvEvent.frame Frame.close :: _ => (s, true)
  | s, RecvEvent.frame Frame.binary :: rest => readLoop s rest
  | s, RecvEvent.frame Frame.ping :: rest => readLoop s rest
  | s, RecvEvent.frame Frame.pong :: rest => readLoop s rest
  | s, RecvEvent.readErr :: _ => (s, true)
  | s, RecvEvent.streamEnd :: _ => (s, true)

/-- Teardown (lines 113-116): abort the connection's forwarding task,
then remove its registry entry (dropping the private channel's only
sender). -/
def teardown (s : SystemState) (cid : String) : SystemState :=
  let s2 :=
    match lookupConn s.conns cid with
    | some c => { s with conns := setConn s.conns cid ({ c with fwdAborted := true }) }
    | none => s
  { s2 with connections := removeKey s2.connections cid }

/-- The whole of `handle_socket`: connect, run the read loop on the
connection's receive results, and tear down once the loop exits. -/
def handle_socket (s : SystemState) (cid : String) (events : List RecvEvent) :
    SystemState :=
  let r := readLoop (onConnect s cid) events
  if r.2 then teardown r.1 cid else r.1

/-- One step of the forwarding task (lines 90-97) for connection `cid`,
`writeOk` telling whether the socket write would succeed: receive from
the private channel (whose sender is live while the registry holds the
entry); on a message, write it out or `break` on a write error; on a
lag error or a closed channel, `break` (the `while let Ok(msg)`
pattern); suspend while the channel is empty. -/
def forwardStep (s : SystemState) (cid : String) (writeOk : Bool) : SystemState :=
  match lookupConn s.conns cid with
  | none => s
  | some c =>
    if c.fwdAborted || c.fwdDone then s
    else
      match c.priv.recvAt c.fwdPos (memKey s.connections cid) with
      | (RecvOutcome.msg m, p2) =>
        if writeOk then
          let c2 := { c with fwdPos := p2, delivered := c.delivered ++ [m] }
          { s with conns := setConn s.conns cid c2 }
        else
          { s with conns := setConn s.conns cid ({ c with fwdPos := p2, fwdDone := true }) }
      | (RecvOutcome.lagged, p2) =>
        { s with conns := setConn s.conns cid ({ c with fwdPos := p2, fwdDone := true }) }
      | (RecvOutcome.closed, _) =>
        { s with conns := setConn s.conns cid ({ c with fwdDone := true }) }
      | (RecvOutcome.pending, _) => s

/-! ## Connection lifecycle traces

For the registry invariant we run a trace of connect and disconnect
events against the system and compare the registry with the set of
currently-open connections computed from the trace alone. -/

/-- A lifecycle event: a connection is established, or its handler
terminates (running teardown). -/
inductive LifeEvent where
  | connect (cid : String) : LifeEvent
  | disconnect (cid : String) : LifeEvent

/-- Run a lifecycle trace. -/
def runLife : SystemState → List LifeEvent → SystemState
  | s, [] => s
  | s, LifeEvent.connect cid :: rest => runLife (onConnect s cid) rest
  | s, LifeEvent.disconnect cid :: rest => runLife (teardown s cid) rest

/-- Last lifecycle status of `cid` in a trace: `some true` if its last
event is a connect, `some false` if a disconnect, `none` if the trace
never mentions it. -/
def lastStatus : List LifeEvent → String → Option Bool
  | [], _ => none
  | LifeEvent.connect c :: rest, cid =>
    match lastStatus rest cid with
    | some b => some b
    | none => if c = cid then some true else none
  | LifeEvent.disconnect c :: rest, cid =>
    match lastStatus rest cid with
    | some b => some b
    | none => if c = cid then some false else none

/-- A connection is open after a trace iff its last event is a connect. -/
def isOpen (tr : List LifeEvent) (cid : String) : Bool :=
  (lastStatus tr cid).getD false

/-- Concrete timestamp used by the scenarios: 2024-01-01T00:00:00Z. -/
def aliceTs : Rfc3339 := ⟨2024, 1, 1, 0, 0, 0, 0, 0⟩

/-- The message of the spec's scenario. -/
def aliceMsg : ChatMessage := ⟨"alice", "hi", aliceTs⟩

/-- The scenario's JSON payload. -/
def aliceJson : Json :=
  Json.obj [("username", Json.str "alice"), ("content", Json.str "hi"),
    ("timestamp", Json.str "2024-01-01T00:00:00Z")]

/-! ## Registry and lookup lemmas -/

theorem memKey_iff (l : List String) (k : String) : memKey l k = true ↔ k ∈ l := by
  induction l with
  | nil => simp [memKey]
  | cons x rest ih =>
    by_cases hx : x = k
    · subst hx; simp [memKey]
    · simp only [memKey, if_neg hx, ih, List.mem_cons]
      constructor
      · exact Or.inr
      · rintro (h | h)
        · exact absurd h.symm hx
        · exact h

theorem nodup_insertKey (l : List String) (c : String) (h : l.Nodup) :
    (insertKey l c).Nodup := by
  unfold insertKey
  by_cases hm : memKey l c = true
  · rw [if_pos hm]; exact h
  · rw [if_neg hm]
    exact List.nodup_cons.mpr ⟨fun hc => hm ((memKey_iff l c).mpr hc), h⟩

theorem removeKey_sublist (l : List String) (c : String) :
    List.Sublist (removeKey l c) l := by
  induction l with
  | nil => exact List.Sublist.refl []
  | cons x rest ih =>
    by_cases hx : x = c
    · rw [removeKey, if_pos hx]
      exact List.sublist_cons_self x rest
    · rw [removeKey, if_neg hx]
      exact List.Sublist.cons₂ x ih

theorem nodup_removeKey (l : List String) (c : String) (h : l.Nodup) :
    (removeKey l c).Nodup :=
  h.sublist (removeKey_sublist l c)

theorem memKey_insertKey (l : List String) (c k : String) :
    memKey (insertKey l c) k = if c = k then true else memKey l k := by
  unfold insertKey
  by_cases hm : memKey l c = true
  · rw [if_pos hm]
    by_cases hc : c = k
    · subst hc; simp [hm]
    · simp [hc]
  · rw [if_neg hm]
    by_cases hc : c = k
    · subst hc; simp [memKey]
    · simp [memKey, hc]

theorem memKey_removeKey_self (l : List String) (c : String) (h : l.Nodup) :
    memKey (removeKey l c) c = false := by
  induction l with
  | nil => rfl
  | cons x rest ih =>
    rw [List.nodup_cons] at h
    by_cases hx : x = c
    · subst hx
      have hr : removeKey (x :: rest) x = rest := by simp [removeKey]
      rw [hr]
      cases hmc : memKey rest x with
      | false => rfl
      | true => exact absurd ((memKey_iff rest x).mp hmc) h.1
    · simp [removeKey, memKey, hx, ih h.2]

theorem memKey_removeKey_ne (l : List String) (c k : String) (h : c ≠ k) :
    memKey (removeKey l c) k = memKey l k := by
  induction l with
  | nil => rfl
  | cons x rest ih =>
    by_cases hx : x = c
    · subst hx
      simp [removeKey, memKey, h]
    · simp [removeKey, memKey, hx, ih]

theorem lookupConn_setConn_self (l : List (String × ConnState)) (cid : String)
    (c c2 : ConnState) (h : lookupConn l cid = some c) :
    lookupConn (setConn l cid c2) cid = some c2 := by
  induction l with
  | nil => simp [lookupConn] at h
  | cons hd rest ih =>
    obtain ⟨k, d⟩ := hd
    by_cases hk : k = cid
    · simp [setConn, lookupConn, hk]
    · simp only [lookupConn, if_neg hk] at h
      simp [setConn, lookupConn, hk, ih h]

theorem lookupConn_setConn_ne (l : List (String × ConnState)) (a b : String)
    (c2 : ConnState) (h : a ≠ b) :
    lookupConn (setConn l a c2) b = lookupConn l b := by
  induction l with
  | nil => rfl
  | cons hd rest ih =>
    obtain ⟨k, d⟩ := hd
    by_cases hk : k = a
    · subst hk; simp [setConn, lookupConn, h]
    · simp [setConn, lookupConn, hk, ih]

theorem teardown_connections (s : SystemState) (cid : String) :
    (teardown s cid).connections = removeKey s.connections cid := by
  unfold teardown
  cases lookupConn s.conns cid <;> rfl

theorem teardown_tx (s : SystemState) (cid : String) :
    (teardown s cid).tx = s.tx := by
  unfold teardown
  cases lookupConn s.conns cid <;> rfl

theorem teardown_lookup_ne (s : SystemState) (a b : String) (h : a ≠ b) :
    lookupConn (teardown s a).conns b = lookupConn s.conns b := by
  unfold teardown
  cases hc : lookupConn s.conns a with
  | none => rfl
  | some c => simpa using lookupConn_setConn_ne s.conns a b _ h

/-! ## Lifecycle trace lemmas -/

theorem runLife_nodup (tr : List LifeEvent) :
    ∀ s : SystemState, s.connections.Nodup → (runLife s tr).connections.Nodup := by
  induction tr with
  | nil => exact fun s h => h
  | cons e rest ih =>
    intro s h
    cases e with
    | connect cid => exact ih _ (nodup_insertKey _ _ h)
    | disconnect cid =>
      refine ih _ ?_
      rw [teardown_connections]
      exact nodup_removeKey _ _ h

theorem runLife_memKey (tr : List LifeEvent) :
    ∀ (s : SystemState) (k : String), s.connections.Nodup →
      memKey (runLife s tr).connections k =
        (lastStatus tr k).getD (memKey s.connections k) := by
  induction tr with
  | nil => intro s k _; rfl
  | cons e rest ih =>
    intro s k h
    cases e with
    | connect cid =>
      rw [runLife, ih _ k (nodup_insertKey _ _ h)]
      simp only [lastStatus]
      cases lastStatus rest k with
      | some b => rfl
      | none =>
        simp only [Option.getD]
        rw [onConnect, memKey_insertKey]
        by_cases hc : cid = k <;> simp [hc]
    | disconnect cid =>
      rw [runLife, ih _ k (by rw [teardown_connections]; exact nodup_removeKey _ _ h)]
      simp only [lastStatus]
      cases lastStatus rest k with
      | some b => rfl
      | none =>
        simp only [Option.getD]
        rw [teardown_connections]
        by_cases hc : cid = k
        · subst hc; simp [memKey_removeKey_self _ _ h]
        · simp [hc, memKey_removeKey_ne _ _ _ hc]

/-! ## Decoding lemmas -/

theorem chatFromFields_append (k : String) (v : Json)
    (h1 : k ≠ "username") (h2 : k ≠ "content") (h3 : k ≠ "timestamp") :
    ∀ (fields : List (String × Json)) (u c : Option String) (t : Option Rfc3339),
      chatFromFields (fields ++ [(k, v)]) u c t = chatFromFields fields u c t := by
  intro fields
  induction fields with
  | nil =>
    intro u c t
    cases u <;> cases c <;> cases t <;> simp [chatFromFields, h1, h2, h3]
  | cons hd tl ih =>
    intro u c t
    obtain ⟨k2, v2⟩ := hd
    by_cases hu : k2 = "username"
    · subst hu
      cases u with
      | some _ => simp [chatFromFields]
      | none => cases v2 <;> simp [chatFromFields, ih]
    · by_cases hc : k2 = "content"
      · subst hc
        cases c with
        | some _ => simp [chatFromFields, hu]
        | none => cases v2 <;> simp [chatFromFields, hu, ih]
      · by_cases ht : k2 = "timestamp"
        · subst ht
          cases t with
          | some _ => simp [chatFromFields, hu, hc]
          | none =>
            cases v2 with
            | str s2 =>
              cases parseRfc3339 s2 <;> simp [chatFromFields, hu, hc, ih]
            | null => simp [chatFromFields, hu, hc]
            | bool b => simp [chatFromFields, hu, hc]
            | num n => simp [chatFromFields, hu, hc]
            | arr xs => simp [chatFromFields, hu, hc]
            | obj fs => simp [chatFromFields, hu, hc]
        · simp [chatFromFields, hu, hc, ht, ih]

/-! ## Forwarding congruence -/

theorem forwardStep_lookup_congr (t s : SystemState) (b : String) (ok : Bool)
    (hl : lookupConn t.conns b = lookupConn s.conns b)
    (hm : memKey t.connections b = memKey s.connections b) :
    lookupConn (forwardStep t b ok).conns b = lookupConn (forwardStep s b ok).conns b := by
  unfold forwardStep
  rw [hl]
  cases hc : lookupConn s.conns b with
  | none => simpa [hc] using hl
  | some c =>
    rw [hm]
    by_cases hd : c.fwdAborted || c.fwdDone
    · simpa [hd, hc] using hl
    · simp only [hd, if_false]
      have hself := fun c2 => lookupConn_setConn_self t.conns b c c2 (hl.trans hc)
      have hself2 := fun c2 => lookupConn_setConn_self s.conns b c c2 hc
      cases hr : c.priv.recvAt c.fwdPos (memKey s.connections b) with
      | mk outcome p2 =>
        cases outcome with
        | msg m =>
          cases ok <;> simp [hself, hself2]
        | lagged => simp [hself, hself2]
        | pending => simpa [hc] using hl
        | closed => simp [hself, hself2]

/-! ## Claim theorems -/

/-- The system after A, B and C connect and A publishes the scenario
message. -/
def c1State : SystemState :=
  publishStep (onConnect (onConnect (onConnect initState "A") "B") "C")
    (some aliceJson)

/-- C1: the claim that a published message reaches every other connected
subscriber fails on the code.  With A, B and C connected and A
publishing a valid message, the shared channel buffers nothing (its only
receiver was dropped in `main` and no connection subscribes to it), B's
and C's connection states are untouched, and a step of B's or C's
forwarding task delivers nothing since their private channels are empty.
This theorem evaluates the code at the failing input. -/
theorem broadcast_never_delivered :
    decodeText (some aliceJson) = some aliceMsg ∧
    c1State.tx.sent = [] ∧
    lookupConn c1State.conns "B" = some initConn ∧
    lookupConn c1State.conns "C" = some initConn ∧
    forwardStep c1State "B" true = c1State ∧
    forwardStep c1State "C" true = c1State := by
  decide

/-- The system after one connection "B" is established. -/
def c2State : SystemState := onConnect initState "B"

/-- C2: the claim that connecting subscribes a new consumer to the shared
broadcast channel fails on the code.  `onConnect` never touches the
shared channel (no `state.tx.subscribe()` call): its receiver count
stays zero; the registry entry and a fresh private channel are created
instead, and that private consumer observes nothing when a message is
published to the shared producer.  This theorem evaluates the code at
the failing input. -/
theorem connect_does_not_subscribe_shared :
    (∀ (s : SystemState) (cid : String), (onConnect s cid).tx = s.tx) ∧
    c2State.tx.receivers = 0 ∧
    memKey c2State.connections "B" = true ∧
    lookupConn c2State.conns "B" = some initConn ∧
    (lookupConn (publishStep c2State (some aliceJson)).conns "B").map
      (fun c => c.priv.sent) = some [] := by
  refine ⟨fun s cid => rfl, ?_, ?_, ?_, ?_⟩ <;> decide

/-- The scenario payload with an extra unknown field. -/
def c3Json : Json :=
  Json.obj [("username", Json.str "alice"), ("content", Json.str "hi"),
    ("timestamp", Json.str "2024-01-01T00:00:00Z"), ("extra", Json.num 1)]

/-- C3 counterexample: a JSON object containing the field "extra", which
is none of username, content and timestamp, decodes successfully,
refuting the claim that decoding rejects every object with an
unrecognized field. -/
theorem unknown_field_decodes : ChatMessage.fromJson c3Json = some aliceMsg := by
  decide

/-- C3 (amended): decoding is lenient towards unknown fields: appending
a field whose key is none of username, content and timestamp leaves the
decode result of an object unchanged, so such fields are ignored rather
than rejected. -/
theorem unknown_fields_ignored (fields : List (String × Json)) (k : String)
    (v : Json) (h1 : k ≠ "username") (h2 : k ≠ "content") (h3 : k ≠ "timestamp") :
    ChatMessage.fromJson (Json.obj (fields ++ [(k, v)])) =
      ChatMessage.fromJson (Json.obj fields) :=
  chatFromFields_append k v h1 h2 h3 fields none none none

/-- Witness for C3's amended theorem at a concrete object and unknown
key. -/
theorem unknown_fields_ignored_witness :
    ChatMessage.fromJson
        (Json.obj ([("username", Json.str "alice")] ++ [("extra", Json.num 1)])) =
      ChatMessage.fromJson (Json.obj [("username", Json.str "alice")]) :=
  unknown_fields_ignored [("username", Json.str "alice")] "extra" (Json.num 1)
    (by decide) (by decide) (by decide)

/-- C4: a text frame whose payload fails to decode is dropped: nothing
is published, the whole system state (hence every other connection) is
unchanged, and the read loop continues over the remaining events in its
awaiting-frame state. -/
theorem decode_failure_discarded (s : SystemState) (p : TextPayload)
    (rest : List RecvEvent) (h : decodeText p = none) :
    publishStep s p = s ∧
    readLoop s (RecvEvent.frame (Frame.text p) :: rest) = readLoop s rest := by
  have hp : publishStep s p = s := by simp [publishStep, h]
  refine ⟨hp, ?_⟩
  have hstep : readLoop s (RecvEvent.frame (Frame.text p) :: rest) =
      readLoop (publishStep s p) rest := rfl
  rw [hstep, hp]

/-- Witness for C4 at a concrete undecodable payload. -/
theorem decode_failure_discarded_witness :
    publishStep initState (some (Json.str "oops")) = initState ∧
    readLoop initState [RecvEvent.frame (Frame.text (some (Json.str "oops")))] =
      readLoop initState [] :=
  decode_failure_discarded initState (some (Json.str "oops")) [] (by decide)

/-- C5: the shared broadcast channel is created with capacity exactly
100, and a subscriber that is more than 100 messages behind gets a lag
error that skips its oldest undelivered messages: its cursor jumps to
the oldest retained message, strictly later than its old position, and
the next receive succeeds with that message rather than failing
fatally. -/
theorem capacity_100_lag_skips :
    initState.tx.cap = 100 ∧
    (∀ (b : Broadcast ChatMessage) (pos : Nat) (live : Bool),
      b.cap = 100 → 100 < b.sent.length - pos →
      (b.recvAt pos live).1 = RecvOutcome.lagged ∧
      (b.recvAt pos live).2 = b.sent.length - 100 ∧
      pos < b.sent.length - 100 ∧
      ∃ h2 : b.sent.length - 100 < b.sent.length,
        (b.recvAt (b.sent.length - 100) live).1 =
          RecvOutcome.msg (b.sent.get ⟨b.sent.length - 100, h2⟩)) := by
  refine ⟨rfl, fun b pos live hcap hlag => ?_⟩
  have hpos : pos < b.sent.length := by omega
  have hcap2 : b.cap < b.sent.length - pos := by omega
  have h1 : b.recvAt pos live = (RecvOutcome.lagged, b.sent.length - b.cap) := by
    unfold Broadcast.recvAt
    rw [dif_pos hpos, if_pos hcap2]
  have hlen0 : b.sent.length - 100 < b.sent.length := by omega
  have hnl : ¬ b.cap < b.sent.length - (b.sent.length - 100) := by omega
  have h2 : b.recvAt (b.sent.length - 100) live =
      (RecvOutcome.msg (b.sent.get ⟨b.sent.length - 100, hlen0⟩),
        b.sent.length - 100 + 1) := by
    unfold Broadcast.recvAt
    rw [dif_pos hlen0, if_neg hnl]
  exact ⟨by rw [h1], by rw [h1, hcap], by omega, hlen0, by rw [h2]⟩

/-- A capacity-100 channel holding 150 published messages with one
subscriber. -/
def c5Chan : Broadcast ChatMessage := ⟨100, List.replicate 150 aliceMsg, 1⟩

/-- Witness for C5: 150 messages published at capacity 100 against a
subscriber that never read lag it to position 50, skipping its 50
oldest missed messages. -/
theorem capacity_100_lag_skips_witness :
    (c5Chan.recvAt 0 true).1 = RecvOutcome.lagged ∧
    (c5Chan.recvAt 0 true).2 = 50 := by
  have h := capacity_100_lag_skips.2 c5Chan 0 true rfl (by simp [c5Chan])
  refine ⟨h.1, ?_⟩
  rw [h.2.1]
  simp [c5Chan]

/-- C6: a close frame makes the read loop exit at once (later events are
not consumed), after which teardown removes the connection's registry
entry and signals its forwarding task to stop; equivalently the whole
handler on a close-led event list equals connect followed by teardown. -/
theorem close_frame_triggers_teardown (s : SystemState) (cid : String)
    (rest : List RecvEvent) (c : ConnState)
    (hnd : s.connections.Nodup) (hc : lookupConn s.conns cid = some c) :
    readLoop s (RecvEvent.frame Frame.close :: rest) = (s, true) ∧
    memKey (teardown s cid).connections cid = false ∧
    lookupConn (teardown s cid).conns cid = some ({ c with fwdAborted := true }) ∧
    (∀ (s0 : SystemState) (rest0 : List RecvEvent),
      handle_socket s0 cid (RecvEvent.frame Frame.close :: rest0) =
        teardown (onConnect s0 cid) cid) := by
  refine ⟨rfl, ?_, ?_, fun s0 rest0 => rfl⟩
  · rw [teardown_connections]
    exact memKey_removeKey_self _ _ hnd
  · simp only [teardown, hc]
    exact lookupConn_setConn_self s.conns cid c _ hc

/-- The system with the single connection "A" open. -/
def c6State : SystemState := onConnect initState "A"

/-- Witness for C6 at a one-connection system. -/
theorem close_frame_triggers_teardown_witness :
    readLoop c6State [RecvEvent.frame Frame.close] = (c6State, true) ∧
    memKey (teardown c6State "A").connections "A" = false ∧
    lookupConn (teardown c6State "A").conns "A" =
      some ({ initConn with fwdAborted := true }) ∧
    (∀ (s0 : SystemState) (rest0 : List RecvEvent),
      handle_socket s0 "A" (RecvEvent.frame Frame.close :: rest0) =
        teardown (onConnect s0 "A") "A") :=
  close_frame_triggers_teardown c6State "A" [] initConn (by decide) (by decide)

/-- C7: tearing down connection `a` leaves every other connection `b`
untouched: `b`'s registry entry, its runtime state (forwarding task and
deliveries), and the shared channel are unchanged, and a step of `b`'s
forwarding task yields the same connection state as without `a`'s
teardown. -/
theorem teardown_affects_only_own_connection (s : SystemState) (a b : String)
    (ok : Bool) (hne : a ≠ b) :
    lookupConn (teardown s a).conns b = lookupConn s.conns b ∧
    memKey (teardown s a).connections b = memKey s.connections b ∧
    (teardown s a).tx = s.tx ∧
    lookupConn (forwardStep (teardown s a) b ok).conns b =
      lookupConn (forwardStep s b ok).conns b := by
  have h1 := teardown_lookup_ne s a b hne
  have h2 : memKey (teardown s a).connections b = memKey s.connections b := by
    rw [teardown_connections]
    exact memKey_removeKey_ne _ _ _ hne
  exact ⟨h1, h2, teardown_tx s a, forwardStep_lookup_congr _ _ b ok h1 h2⟩

/-- The system with connections "A" and "B" open. -/
def c7State : SystemState := onConnect (onConnect initState "A") "B"

/-- Witness for C7: tearing down "A" leaves "B" untouched. -/
theorem teardown_affects_only_own_connection_witness :
    lookupConn (teardown c7State "A").conns "B" = lookupConn c7State.conns "B" ∧
    memKey (teardown c7State "A").connections "B" = memKey c7State.connections "B" ∧
    (teardown c7State "A").tx = c7State.tx ∧
    lookupConn (forwardStep (teardown c7State "A") "B" true).conns "B" =
      lookupConn (forwardStep c7State "B" true).conns "B" :=
  teardown_affects_only_own_connection c7State "A" "B" true (by decide)

/-- C8: publishing a decoded message discards the broadcast-send result:
the read loop continues over the remaining events no matter how the send
went, and with zero live subscribers the send is a complete no-op on the
state, so the publish behaves as silently successful. -/
theorem broadcast_send_error_discarded (s : SystemState) (p : TextPayload)
    (m : ChatMessage) (rest : List RecvEvent) (h : decodeText p = some m) :
    readLoop s (RecvEvent.frame (Frame.text p) :: rest) =
      readLoop (publishStep s p) rest ∧
    (s.tx.receivers = 0 → publishStep s p = s) := by
  refine ⟨rfl, fun hr => ?_⟩
  simp [publishStep, h, Broadcast.send, hr]

/-- Witness for C8 at the scenario payload against the zero-subscriber
initial state. -/
theorem broadcast_send_error_discarded_witness :
    readLoop initState [RecvEvent.frame (Frame.text (some aliceJson))] =
      readLoop (publishStep initState (some aliceJson)) [] ∧
    (initState.tx.receivers = 0 → publishStep initState (some aliceJson) = initState) :=
  broadcast_send_error_discarded initState (some aliceJson) aliceMsg [] (by decide)

/-- C9: after any trace of connects and handler terminations starting
from the initial state, the registry holds a key exactly for the
currently-open connections (those whose last lifecycle event is a
connect) and holds no duplicate entries, so at every quiescent point it
has exactly one entry per open connection and no entry outlives its
connection. -/
theorem registry_matches_open_connections (tr : List LifeEvent) (cid : String) :
    memKey (runLife initState tr).connections cid = isOpen tr cid ∧
    (runLife initState tr).connections.Nodup := by
  constructor
  · rw [runLife_memKey tr initState cid List.Pairwise.nil]
    rfl
  · exact runLife_nodup tr initState List.Pairwise.nil

/-- C10: the read loop also exits when the stream yields a protocol
error or ends, and the same teardown as for a close frame then runs:
the whole handler on such an event list equals connect followed by
teardown. -/
theorem read_error_triggers_teardown (s : SystemState) (cid : String)
    (rest : List RecvEvent) :
    readLoop s (RecvEvent.readErr :: rest) = (s, true) ∧
    readLoop s (RecvEvent.streamEnd :: rest) = (s, true) ∧
    handle_socket s cid (RecvEvent.readErr :: rest) =
      teardown (onConnect s cid) cid ∧
    handle_socket s cid (RecvEvent.streamEnd :: rest) =
      teardown (onConnect s cid) cid :=
  ⟨rfl, rfl, rfl, rfl⟩

end WebsocketChat
